import Mathlib

/-!
Verification development for the promise-bounding utility (`Promises.cancellable`,
source file src/unnamed/part_000) and the hover enrichment orchestration
(`Hovers.getAutoLinkedIssues`, `Hovers.getPullRequestForCommit`,
`Hovers.detailsMessage`, source file src/src/hovers/hovers.ts).

The asynchronous code is embedded as an explicit state machine: the executor
passed to `new Promise` (part_000 lines 22-61) installs either a timer or a
cancellation-token listener and hooks the wrapped operation's `then` handlers;
we model the resulting reactive system by its state (the `fulfilled` flag, the
timer's liveness, the listener's attachment, and the wrapper promise's
settlement) and a step function over the two kinds of events that can occur
afterwards: the wrapped operation settling, and the bound (timer or token)
firing.  JavaScript promise semantics make `resolve`/`reject` no-ops once the
promise is settled; `trySettle` encodes exactly that.  A `then` handler runs as
a microtask immediately after its promise settles and before any later-queued
macrotask (such as a timer callback), so the settlement of the operation and
the body of the `then` handler form one atomic step.
-/

namespace GitLens

/-- Eventual result of the wrapped operation (the `promise` argument of
`Promises.cancellable`): it either fulfills with a value or rejects with an
error (errors are abstracted as numeric codes). -/
inductive OpResult (T : Type) where
  | value (v : T)
  | failure (e : Nat)
deriving DecidableEq

/-- The wrapped operation: a reference identity (`id`) plus its eventual
result.  Holding the same `Op` means holding a reference to the same
underlying promise, whose eventual result is `result`. -/
structure Op (T : Type) where
  id : Nat
  result : OpResult T
deriving DecidableEq

/-- `Promises.CancellationError` (part_000 lines 5-9): an error carrying the
original pending operation in its `promise` field plus a message. -/
structure CancellationError (T : Type) where
  promise : Op T
  message : String
deriving DecidableEq

/-- Possible settlements of the wrapper promise returned by
`Promises.cancellable`:
* `fulfilled v` — `resolve` was called (with the adopted value of the
  operation on the success path, line 51, or a caller-chosen value from
  `onDidCancel`; `none` models `resolve(undefined)`);
* `rejected e` — `reject(ex)` with the operation's own error (line 58) or a
  caller-chosen error from `onDidCancel`;
* `rejectedCancellation c` — `reject(new CancellationError(promise, msg))`
  (lines 30 and 40). -/
inductive WResult (T : Type) where
  | fulfilled (v : Option T)
  | rejected (e : Nat)
  | rejectedCancellation (c : CancellationError T)
deriving DecidableEq

/-- What a caller-supplied `options.onDidCancel(resolve, reject)` callback
does with the `resolve`/`reject` callbacks it receives when the bound fires. -/
inductive CancelAction (T : Type) where
  | resolveWith (v : Option T)
  | rejectWith (e : Nat)
  | noAction
deriving DecidableEq

/-- The `options` argument of `Promises.cancellable` (part_000 lines 14-20). -/
structure COptions (T : Type) where
  cancelMessage : Option String
  onDidCancel : Option (CancelAction T)
deriving DecidableEq

/-- The `timeoutOrToken` argument: a timeout duration in milliseconds or a
cancellation token (part_000 line 13 and the `typeof` test on line 25). -/
inductive BoundSpec where
  | timeout (ms : Nat)
  | token
deriving DecidableEq

/-- State of one `Promises.cancellable` wrapper after the executor has run:
the `fulfilled` flag (line 23), whether the installed timer is still live
(set on line 26, cleared on lines 49 and 56, consumed when it fires),
whether a token listener is attached (line 34; the source never disposes the
registration), and the wrapper promise's settlement (`none` while pending). -/
structure CState (T : Type) where
  fulfilled : Bool
  timerActive : Bool
  listenerAttached : Bool
  result : Option (WResult T)
deriving DecidableEq

/-- Events that can reach the wrapper after creation: the wrapped operation
settles (running the `then` handlers of lines 45-60), or the bound fires
(the timer callback of lines 26-32, or the token callback of lines 34-42). -/
inductive Ev where
  | opSettle
  | boundFire
deriving DecidableEq

/-- JavaScript promise exactly-once settlement: `resolve`/`reject` are no-ops
once the promise is settled. -/
def trySettle {T : Type} (s : CState T) (w : WResult T) : CState T :=
  match s.result with
  | some _ => s
  | none => { s with result := some w }

/-- JavaScript `a || b` on an optional string: the default is used when the
caller supplied nothing or supplied a falsy (empty) string, as in
`options.cancelMessage || 'TIMED OUT'` (lines 30 and 40). -/
def jsOrElse (m : Option String) (d : String) : String :=
  match m with
  | some str => if str = "" then d else str
  | none => d

/-- Default reason text per bound kind: line 30 for a timer, line 40 for a
token. -/
def defaultCancelMsg : BoundSpec → String
  | BoundSpec.timeout _ => "TIMED OUT"
  | BoundSpec.token => "CANCELLED"

/-- Shared body of the timer callback (lines 27-31) and the token callback
(lines 37-41): invoke `onDidCancel` with `resolve`/`reject` if supplied,
otherwise reject with a `CancellationError` carrying the original operation. -/
def cancelBody {T : Type} (op : Op T) (opts : COptions T) (d : String)
    (s : CState T) : CState T :=
  match opts.onDidCancel with
  | some (CancelAction.resolveWith v) => trySettle s (WResult.fulfilled v)
  | some (CancelAction.rejectWith e) => trySettle s (WResult.rejected e)
  | some CancelAction.noAction => s
  | none =>
      trySettle s
        (WResult.rejectedCancellation ⟨op, jsOrElse opts.cancelMessage d⟩)

/-- The wrapper's value on the operation-settled path: `resolve(promise)` on
line 51 adopts the operation's value; `reject(ex)` on line 58 propagates the
operation's error unchanged. -/
def fromOp {T : Type} (op : Op T) : WResult T :=
  match op.result with
  | OpResult.value v => WResult.fulfilled (some v)
  | OpResult.failure e => WResult.rejected e

/-- State right after the executor of lines 22-61 has run: not fulfilled, no
settlement, and either a live timer (line 26) or an attached token listener
(line 34) depending on the bound kind. -/
def initState (T : Type) (b : BoundSpec) : CState T :=
  match b with
  | BoundSpec.timeout _ => ⟨false, true, false, none⟩
  | BoundSpec.token => ⟨false, false, true, none⟩

/-- One event of the wrapper's life.
* `opSettle`: the `then` handlers (lines 45-60) set `fulfilled`, clear the
  timer if one was installed (clearing an already-dead timer is a no-op),
  and resolve/reject the wrapper with the operation's result.
* `boundFire` with a timer: the callback of lines 26-32 runs only if the
  timer is still live (a cleared timer never fires, a timer fires once); it
  has no `fulfilled` guard in the source.
* `boundFire` with a token: the callback of lines 34-42 is guarded by
  `if (fulfilled) return` (line 35) and the listener stays attached. -/
def cancellableStep {T : Type} (op : Op T) (b : BoundSpec) (opts : COptions T)
    (s : CState T) : Ev → CState T
  | Ev.opSettle =>
      trySettle { s with fulfilled := true, timerActive := false } (fromOp op)
  | Ev.boundFire =>
      match b with
      | BoundSpec.timeout _ =>
          if s.timerActive then
            cancelBody op opts (defaultCancelMsg b) { s with timerActive := false }
          else s
      | BoundSpec.token =>
          if s.fulfilled then s
          else cancelBody op opts (defaultCancelMsg b) s

/-- Run the wrapper created by `Promises.cancellable` over a whole sequence of
events, starting from the state the executor leaves behind. -/
def cancellableRun {T : Type} (op : Op T) (b : BoundSpec) (opts : COptions T)
    (tr : List Ev) : CState T :=
  tr.foldl (cancellableStep op b opts) (initState T b)

theorem trySettle_of_some {T : Type} {s : CState T} {w : WResult T}
    (h : s.result = some w) (w' : WResult T) :
    (trySettle s w').result = some w := by
  simp [trySettle, h]

theorem cancelBody_preserves {T : Type} (op : Op T) (opts : COptions T)
    (d : String) {s : CState T} {w : WResult T} (h : s.result = some w) :
    (cancelBody op opts d s).result = some w := by
  unfold cancelBody
  cases hc : opts.onDidCancel with
  | none => exact trySettle_of_some h _
  | some a => cases a <;> simp [trySettle, h]

theorem step_preserves {T : Type} (op : Op T) (b : BoundSpec)
    (opts : COptions T) {s : CState T} {w : WResult T}
    (h : s.result = some w) (e : Ev) :
    (cancellableStep op b opts s e).result = some w := by
  cases e with
  | opSettle =>
      have h1 : (CState.result { s with fulfilled := true, timerActive := false })
          = some w := h
      exact trySettle_of_some h1 _
  | boundFire =>
      cases b with
      | timeout ms =>
          by_cases ht : s.timerActive = true
          · have h1 : (CState.result { s with timerActive := false }) = some w := h
            simpa [cancellableStep, ht] using
              cancelBody_preserves op opts (defaultCancelMsg (BoundSpec.timeout ms)) h1
          · simp [cancellableStep, ht, h]
      | token =>
          by_cases hf : s.fulfilled = true
          · simp [cancellableStep, hf, h]
          · simpa [cancellableStep, hf] using
              cancelBody_preserves op opts (defaultCancelMsg BoundSpec.token) h

theorem foldl_preserves {T : Type} (op : Op T) (b : BoundSpec)
    (opts : COptions T) {s : CState T} {w : WResult T}
    (h : s.result = some w) (tr : List Ev) :
    (tr.foldl (cancellableStep op b opts) s).result = some w := by
  induction tr generalizing s with
  | nil => simpa using h
  | cons e rest ih => exact ih (step_preserves op b opts h e)

theorem trySettle_listener {T : Type} (s : CState T) (w : WResult T) :
    (trySettle s w).listenerAttached = s.listenerAttached := by
  unfold trySettle
  split <;> rfl

theorem cancelBody_listener {T : Type} (op : Op T) (opts : COptions T)
    (d : String) (s : CState T) :
    (cancelBody op opts d s).listenerAttached = s.listenerAttached := by
  unfold cancelBody
  split <;> simp [trySettle_listener]

theorem step_listener {T : Type} (op : Op T) (b : BoundSpec) (opts : COptions T)
    (s : CState T) (e : Ev) :
    (cancellableStep op b opts s e).listenerAttached = s.listenerAttached := by
  cases e with
  | opSettle => simp [cancellableStep, trySettle_listener]
  | boundFire =>
      cases b with
      | timeout ms =>
          by_cases ht : s.timerActive = true <;>
            simp [cancellableStep, ht, cancelBody_listener]
      | token =>
          by_cases hf : s.fulfilled = true <;>
            simp [cancellableStep, hf, cancelBody_listener]

theorem foldl_listener {T : Type} (op : Op T) (b : BoundSpec) (opts : COptions T)
    (s : CState T) (tr : List Ev) :
    (tr.foldl (cancellableStep op b opts) s).listenerAttached
      = s.listenerAttached := by
  induction tr generalizing s with
  | nil => rfl
  | cons e rest ih => rw [List.foldl_cons, ih, step_listener]

theorem trySettle_timer {T : Type} (s : CState T) (w : WResult T) :
    (trySettle s w).timerActive = s.timerActive := by
  unfold trySettle
  split <;> rfl

theorem cancelBody_timer {T : Type} (op : Op T) (opts : COptions T)
    (d : String) (s : CState T) :
    (cancelBody op opts d s).timerActive = s.timerActive := by
  unfold cancelBody
  split <;> simp [trySettle_timer]

theorem step_timer_false {T : Type} (op : Op T) (b : BoundSpec)
    (opts : COptions T) {s : CState T} (h : s.timerActive = false) (e : Ev) :
    (cancellableStep op b opts s e).timerActive = false := by
  cases e with
  | opSettle => simp [cancellableStep, trySettle_timer]
  | boundFire =>
      cases b with
      | timeout ms => simp [cancellableStep, h]
      | token =>
          by_cases hf : s.fulfilled = true <;>
            simp [cancellableStep, hf, cancelBody_timer, h]

theorem foldl_timer_false {T : Type} (op : Op T) (b : BoundSpec)
    (opts : COptions T) {s : CState T} (h : s.timerActive = false)
    (tr : List Ev) :
    (tr.foldl (cancellableStep op b opts) s).timerActive = false := by
  induction tr generalizing s with
  | nil => simpa using h
  | cons e rest ih => exact ih (step_timer_false op b opts h e)

/-- The settlement shapes allowed by the data-model invariant: the operation's
success value, the operation's failure, or a cancellation outcome carrying the
original operation. -/
def wShape {T : Type} (op : Op T) (w : WResult T) : Prop :=
  (∃ v, op.result = OpResult.value v ∧ w = WResult.fulfilled (some v)) ∨
  (∃ e, op.result = OpResult.failure e ∧ w = WResult.rejected e) ∨
  (∃ m, w = WResult.rejectedCancellation ⟨op, m⟩)

theorem step_init_settles {T : Type} (op : Op T) (b : BoundSpec)
    (opts : COptions T) (hcb : opts.onDidCancel = none) (e : Ev) :
    ∃ w, (cancellableStep op b opts (initState T b) e).result = some w ∧
      wShape op w := by
  cases e with
  | opSettle =>
      refine ⟨fromOp op, ?_, ?_⟩
      · cases b <;> simp [cancellableStep, initState, trySettle]
      · unfold wShape
        cases hr : op.result with
        | value v => exact Or.inl ⟨v, rfl, by simp [fromOp, hr]⟩
        | failure e2 => exact Or.inr (Or.inl ⟨e2, rfl, by simp [fromOp, hr]⟩)
  | boundFire =>
      cases b with
      | timeout ms =>
          refine ⟨WResult.rejectedCancellation
            ⟨op, jsOrElse opts.cancelMessage "TIMED OUT"⟩, ?_, ?_⟩
          · simp [cancellableStep, initState, cancelBody, hcb, trySettle,
              defaultCancelMsg]
          · exact Or.inr (Or.inr ⟨_, rfl⟩)
      | token =>
          refine ⟨WResult.rejectedCancellation
            ⟨op, jsOrElse opts.cancelMessage "CANCELLED"⟩, ?_, ?_⟩
          · simp [cancellableStep, initState, cancelBody, hcb, trySettle,
              defaultCancelMsg]
          · exact Or.inr (Or.inr ⟨_, rfl⟩)

/-- C1: for every operation and every bound specification (positive duration
or cancellation token), once any event occurs the wrapper returned by
`Promises.cancellable` is settled, its settlement is exactly one of the
operation's success value, the operation's failure, or a `CancellationError`
outcome carrying the operation, and no later event (in particular a
cancellation signal firing after the operation has settled) ever changes that
settlement. -/
theorem cancellable_settles_exactly_once {T : Type} (op : Op T) (b : BoundSpec)
    (opts : COptions T) (tr : List Ev) (hne : tr ≠ [])
    (hcb : opts.onDidCancel = none)
    (hpos : ∀ ms, b = BoundSpec.timeout ms → 0 < ms) :
    (∃ w, (cancellableRun op b opts tr).result = some w ∧ wShape op w) ∧
    (∀ tr2, (cancellableRun op b opts (tr ++ tr2)).result
        = (cancellableRun op b opts tr).result) := by
  obtain ⟨e, rest, rfl⟩ : ∃ e rest, tr = e :: rest := by
    cases tr with
    | nil => exact absurd rfl hne
    | cons e rest => exact ⟨e, rest, rfl⟩
  obtain ⟨w, hw, hs⟩ := step_init_settles op b opts hcb e
  have hrun : (cancellableRun op b opts (e :: rest)).result = some w := by
    unfold cancellableRun
    rw [List.foldl_cons]
    exact foldl_preserves op b opts hw rest
  refine ⟨⟨w, hrun, hs⟩, ?_⟩
  intro tr2
  have hrun2 : (List.foldl (cancellableStep op b opts) (initState T b)
      (e :: rest)).result = some w := hrun
  unfold cancellableRun
  rw [List.foldl_append]
  rw [foldl_preserves op b opts hrun2 tr2]
  exact hrun2.symm

/-- Closed witness instantiating `cancellable_settles_exactly_once` at a
concrete operation, bound and trace. -/
theorem cancellable_settles_exactly_once_witness :
    (([Ev.opSettle] : List Ev) ≠ []) ∧
    ((∃ w, (cancellableRun (⟨1, OpResult.value 7⟩ : Op Nat)
          (BoundSpec.timeout 5) ⟨none, none⟩ [Ev.opSettle]).result = some w ∧
        wShape ⟨1, OpResult.value 7⟩ w) ∧
      (∀ tr2, (cancellableRun (⟨1, OpResult.value 7⟩ : Op Nat)
            (BoundSpec.timeout 5) ⟨none, none⟩ ([Ev.opSettle] ++ tr2)).result
          = (cancellableRun (⟨1, OpResult.value 7⟩ : Op Nat)
            (BoundSpec.timeout 5) ⟨none, none⟩ [Ev.opSettle]).result)) := by
  refine ⟨by simp, ?_⟩
  exact cancellable_settles_exactly_once ⟨1, OpResult.value 7⟩
    (BoundSpec.timeout 5) ⟨none, none⟩ [Ev.opSettle] (by simp) rfl
    (by intro ms h; injection h with h2; omega)

/-- A concrete wrapped operation used by the closed counterexamples and
witnesses: promise identity 1, eventually fulfilling with 7. -/
def opN : Op Nat := ⟨1, OpResult.value 7⟩

/-- C2 counterexample: with a cancellation-token bound, after the operation
settles the wrapper is settled, yet the token listener is still attached —
the source never disposes the registration made by
`timeoutOrToken.onCancellationRequested` on line 34 (its `Disposable` return
value is discarded), so a lingering listener does remain after settlement,
contrary to the claim. -/
theorem token_listener_lingers :
    ¬ (((cancellableRun opN BoundSpec.token ⟨none, none⟩
          [Ev.opSettle]).result.isSome = true) →
        (cancellableRun opN BoundSpec.token ⟨none, none⟩
          [Ev.opSettle]).listenerAttached = false) := by
  decide

/-- C2 (amended): if the operation settles before the bound fires, the
wrapper settles with the operation's value, or propagates its failure
unchanged, and the timer (if any) is cleared; the cancellation-token listener
is NOT detached — it stays attached — but every later event, in particular a
later fire of the bound, leaves the settlement unchanged. -/
theorem cancellable_op_settles_first (T : Type) (op : Op T) (b : BoundSpec)
    (opts : COptions T) (rest : List Ev) :
    (cancellableRun op b opts (Ev.opSettle :: rest)).result
        = some (fromOp op) ∧
    (cancellableRun op b opts (Ev.opSettle :: rest)).timerActive = false ∧
    (b = BoundSpec.token →
      (cancellableRun op b opts (Ev.opSettle :: rest)).listenerAttached
        = true) := by
  have h1 : (cancellableStep op b opts (initState T b) Ev.opSettle).result
      = some (fromOp op) := by
    cases b <;> simp [cancellableStep, initState, trySettle]
  have h2 : (cancellableStep op b opts (initState T b) Ev.opSettle).timerActive
      = false := by
    cases b <;> simp [cancellableStep, initState, trySettle]
  refine ⟨?_, ?_, ?_⟩
  · unfold cancellableRun
    rw [List.foldl_cons]
    exact foldl_preserves op b opts h1 rest
  · unfold cancellableRun
    rw [List.foldl_cons]
    exact foldl_timer_false op b opts h2 rest
  · intro hb
    subst hb
    unfold cancellableRun
    rw [List.foldl_cons, foldl_listener, step_listener]
    rfl

/-- Closed witness instantiating `cancellable_op_settles_first` at a token
bound, a concrete operation and a trailing bound fire. -/
theorem cancellable_op_settles_first_witness :
    (cancellableRun opN BoundSpec.token ⟨none, none⟩
        (Ev.opSettle :: [Ev.boundFire])).result = some (fromOp opN) ∧
    (cancellableRun opN BoundSpec.token ⟨none, none⟩
        (Ev.opSettle :: [Ev.boundFire])).listenerAttached = true := by
  have h := cancellable_op_settles_first Nat opN BoundSpec.token ⟨none, none⟩
    [Ev.boundFire]
  exact ⟨h.1, h.2.2 rfl⟩

/-- C3 counterexample: with a duration bound and a caller-supplied
`cancelMessage` that is the empty string, the reason text of the
`CancellationError` is the default "TIMED OUT", not the caller-supplied
text — line 30 uses `options.cancelMessage || 'TIMED OUT'`, and `||` discards
a falsy (empty) supplied string. -/
theorem empty_cancel_message_ignored :
    (cancellableRun opN (BoundSpec.timeout 100) ⟨some "", none⟩
        [Ev.boundFire]).result
      = some (WResult.rejectedCancellation ⟨opN, "TIMED OUT"⟩) ∧
    (cancellableRun opN (BoundSpec.timeout 100) ⟨some "", none⟩
        [Ev.boundFire]).result
      ≠ some (WResult.rejectedCancellation ⟨opN, ""⟩) := by
  decide

/-- C3 (amended): if the bound fires before the operation settles and no
`onDidCancel` callback was supplied, the wrapper settles with a
`CancellationError` whose reason text is the caller-supplied `cancelMessage`
when that is a non-empty string, and otherwise "TIMED OUT" for a duration
bound and "CANCELLED" for a token bound, and whose `promise` field is the
original operation itself (so awaiting it still yields the operation's
eventual result); if `onDidCancel` is supplied, it is invoked with the
resolve/reject callbacks and the settlement is whatever it decides. -/
theorem cancellable_bound_fires_first (T : Type) (op : Op T) (b : BoundSpec)
    (opts : COptions T) :
    (opts.onDidCancel = none →
      (cancellableStep op b opts (initState T b) Ev.boundFire).result
        = some (WResult.rejectedCancellation
            ⟨op, jsOrElse opts.cancelMessage (defaultCancelMsg b)⟩)) ∧
    (∀ v, opts.onDidCancel = some (CancelAction.resolveWith v) →
      (cancellableStep op b opts (initState T b) Ev.boundFire).result
        = some (WResult.fulfilled v)) ∧
    (∀ e, opts.onDidCancel = some (CancelAction.rejectWith e) →
      (cancellableStep op b opts (initState T b) Ev.boundFire).result
        = some (WResult.rejected e)) := by
  refine ⟨?_, ?_, ?_⟩
  · intro hcb
    cases b <;> simp [cancellableStep, initState, cancelBody, hcb, trySettle]
  · intro v hcb
    cases b <;> simp [cancellableStep, initState, cancelBody, hcb, trySettle]
  · intro e hcb
    cases b <;> simp [cancellableStep, initState, cancelBody, hcb, trySettle]

/-- Closed witness instantiating `cancellable_bound_fires_first`: no
`onDidCancel`, a non-empty caller message on a token bound. -/
theorem cancellable_bound_fires_first_witness :
    (cancellableStep opN BoundSpec.token ⟨some "user cancelled", none⟩
        (initState Nat BoundSpec.token) Ev.boundFire).result
      = some (WResult.rejectedCancellation ⟨opN, "user cancelled"⟩) := by
  have h := cancellable_bound_fires_first Nat opN BoundSpec.token
    ⟨some "user cancelled", none⟩
  have h2 := h.1 rfl
  rw [h2]
  rfl

/-- Deterministic schedule of the race between the operation's settlement and
a timer: if the operation is already settled at call time, its `then` handler
is queued as a microtask and runs before any timer macrotask; otherwise the
earlier event runs first, the timer winning the tie (in particular a 0 ms
timer fires before an operation that is not already settled). -/
def raceTrace (preSettled : Bool) (opDelay ms : Nat) : List Ev :=
  if preSettled then [Ev.opSettle, Ev.boundFire]
  else if opDelay < ms then [Ev.opSettle, Ev.boundFire]
  else [Ev.boundFire, Ev.opSettle]

/-- C8: with a 0 ms timeout the race is still run correctly: the wrapper
settles with a `CancellationError` outcome unless the operation was already
settled at call time, in which case it settles with the operation's value or
failure. -/
theorem cancellable_zero_timeout (T : Type) (op : Op T) (opts : COptions T)
    (preSettled : Bool) (opDelay : Nat) (hcb : opts.onDidCancel = none) :
    (preSettled = true →
      (cancellableRun op (BoundSpec.timeout 0) opts
          (raceTrace preSettled opDelay 0)).result = some (fromOp op)) ∧
    (preSettled = false →
      (cancellableRun op (BoundSpec.timeout 0) opts
          (raceTrace preSettled opDelay 0)).result
        = some (WResult.rejectedCancellation
            ⟨op, jsOrElse opts.cancelMessage "TIMED OUT"⟩)) := by
  constructor
  · intro hp
    subst hp
    simp [raceTrace, cancellableRun, cancellableStep, initState, trySettle,
      cancelBody, hcb, defaultCancelMsg]
  · intro hp
    subst hp
    simp [raceTrace, cancellableRun, cancellableStep, initState, trySettle,
      cancelBody, hcb, defaultCancelMsg]

/-- Closed witness instantiating `cancellable_zero_timeout` in both
directions: not pre-settled gives the cancellation outcome, pre-settled gives
the operation's value. -/
theorem cancellable_zero_timeout_witness :
    (cancellableRun opN (BoundSpec.timeout 0) ⟨none, none⟩
        (raceTrace false 3 0)).result
      = some (WResult.rejectedCancellation ⟨opN, "TIMED OUT"⟩) ∧
    (cancellableRun opN (BoundSpec.timeout 0) ⟨none, none⟩
        (raceTrace true 3 0)).result = some (fromOp opN) := by
  constructor
  · exact (cancellable_zero_timeout Nat opN ⟨none, none⟩ false 3 rfl).2 rfl
  · exact (cancellable_zero_timeout Nat opN ⟨none, none⟩ true 3 rfl).1 rfl

/-!
Embedding of the enrichment lookups of src/src/hovers/hovers.ts.

The external collaborators are abstracted by their observable behaviour at
the call sites:
* the configuration flags read on lines 199-200 and 260 are booleans;
* `CommitFormatter.has(Container.config.hovers.detailsMarkdownFormat, ...)`
  (lines 201 and 261-268) is an opaque predicate on the list of field names
  passed to it (the spec treats it as an injected predicate; the template is
  fixed per render, so the predicate is a function of the field-name list);
* a `GitRemote` carries its `default` flag and optional provider; a provider
  carries `hasApi()` and the cached `maybeConnected` (lines 275-283);
* `provider.isConnected()` is represented by its awaited boolean result,
  consulted only when `maybeConnected` is nullish, as in `??` on line 283;
* the awaited underlying calls (`Container.autolinks.getIssueLinks` on line
  219 and `Container.git.getPullRequestForCommit` on line 291) are
  represented by their settlement: a value, or a thrown error (`JsErr`);
* the logging calls are observational only and assumed non-throwing.

Each lookup returns its value together with an `issued` flag recording
whether the underlying call was started at all.
-/

/-- Provider attached to a remote: identity, the `hasApi()` capability, and
the cached `maybeConnected` state. -/
structure RemoteProvider where
  id : Nat
  hasApi : Bool
  maybeConnected : Option Bool
deriving DecidableEq

/-- A git remote: identity, whether it is the default remote, and its
optional provider. -/
structure GitRemote where
  id : Nat
  default : Bool
  provider : Option RemoteProvider
deriving DecidableEq

/-- The predicate of `remotes.find(r => r.default && r.provider != null)`
(hovers.ts lines 208 and 275). -/
def defaultWithProvider (r : GitRemote) : Bool :=
  r.default && r.provider.isSome

/-- A rejection of an awaited underlying call: a `Promises.CancellationError`
(carrying the original call's promise identity and message) or any other
error. -/
inductive JsErr where
  | cancellation (promiseId : Nat) (message : String)
  | other (code : Nat)
deriving DecidableEq

/-- One value of the autolinked-issues map: a resolved issue, or a
`Promises.CancellationError` embedding the promise of the still-running
lookup (tested by `issue instanceof Promises.CancellationError` on line
224). -/
inductive IssueOrCancel where
  | issue (v : Nat)
  | cancelOutcome (promiseId : Nat) (message : String)
deriving DecidableEq

/-- The map returned by `Container.autolinks.getIssueLinks`: issue keys to
values or embedded cancellation outcomes. -/
abbrev IssueMap := List (Nat × IssueOrCancel)

/-- True when the map has at least one timed-out entry (the filter of lines
222-226 finds something). -/
def hasTimedOutEntry (m : IssueMap) : Bool :=
  m.any fun p =>
    match p.2 with
    | IssueOrCancel.cancelOutcome _ _ => true
    | IssueOrCancel.issue _ => false

/-- Configuration flags read by the two lookups: hovers.autolinks.enabled,
hovers.autolinks.enhanced (lines 199-200) and hovers.pullRequests.enabled
(line 260). -/
structure HoversConfig where
  autolinksEnabled : Bool
  autolinksEnhanced : Bool
  pullRequestsEnabled : Bool
deriving DecidableEq

/-- Result of running one lookup: the returned value and whether the
underlying call was issued. -/
structure LookupRun (α : Type) where
  result : α
  issued : Bool
deriving DecidableEq

/-- `Hovers.getAutoLinkedIssues` (hovers.ts lines 192-251): gate on the two
autolinks flags and on the template referencing the message field (lines
198-206), find the default remote with a provider (lines 208-213), then
await `getIssueLinks` inside try/catch: a resolved map (timed-out entries
included) is returned as is (lines 219-245), any thrown error yields
`undefined` (lines 246-250). -/
def getAutoLinkedIssues (cfg : HoversConfig) (has : List String → Bool)
    (message : String) (remotes : List GitRemote)
    (call : Except JsErr (Option IssueMap)) : LookupRun (Option IssueMap) :=
  if !cfg.autolinksEnabled || !cfg.autolinksEnhanced || !(has ["message"]) then
    ⟨none, false⟩
  else
    match remotes.find? defaultWithProvider with
    | none => ⟨none, false⟩
    | some _ =>
        match call with
        | Except.ok issues => ⟨issues, true⟩
        | Except.error _ => ⟨none, true⟩

/-- The pull-request field names passed to `CommitFormatter.has` on lines
262-267. -/
def prTemplateFields : List String :=
  ["pullRequest", "pullRequestAgo", "pullRequestAgoOrDate", "pullRequestDate",
    "pullRequestState"]

/-- Return domain of `Hovers.getPullRequestForCommit`:
`PullRequest | GitRemote | Promises.CancellationError | undefined`. -/
inductive PRReturn where
  | undef
  | remote (r : GitRemote)
  | prVal (p : Nat)
  | cancelErr (promiseId : Nat) (message : String)
deriving DecidableEq

/-- `Hovers.getPullRequestForCommit` (hovers.ts lines 253-307): gate on the
pull-requests flag and the template referencing a pull-request field (lines
259-273); find the default remote with a provider and require `hasApi()`
(lines 275-280); resolve connectivity via `maybeConnected ?? isConnected()`
and return the remote itself when not connected (lines 282-288); then await
the pull-request call inside try/catch: its value is returned, a
`CancellationError` is returned itself, any other error yields `undefined`
(lines 290-306). -/
def getPullRequestForCommit (cfg : HoversConfig) (has : List String → Bool)
    (ref : String) (remotes : List GitRemote) (isConnectedResult : Bool)
    (call : Except JsErr (Option Nat)) : LookupRun PRReturn :=
  if !cfg.pullRequestsEnabled || !(has prTemplateFields) then
    ⟨PRReturn.undef, false⟩
  else
    match remotes.find? defaultWithProvider with
    | none => ⟨PRReturn.undef, false⟩
    | some remote =>
        match remote.provider with
        | none => ⟨PRReturn.undef, false⟩
        | some provider =>
            if !provider.hasApi then ⟨PRReturn.undef, false⟩
            else if !(provider.maybeConnected.getD isConnectedResult) then
              ⟨PRReturn.remote remote, false⟩
            else
              match call with
              | Except.ok (some p) => ⟨PRReturn.prVal p, true⟩
              | Except.ok none => ⟨PRReturn.undef, true⟩
              | Except.error (JsErr.cancellation pid msg) =>
                  ⟨PRReturn.cancelErr pid msg, true⟩
              | Except.error (JsErr.other _) => ⟨PRReturn.undef, true⟩

/-- What the try block of lines 290-306 produces from the underlying call's
settlement. -/
def prOfCall : Except JsErr (Option Nat) → PRReturn
  | Except.ok (some p) => PRReturn.prVal p
  | Except.ok none => PRReturn.undef
  | Except.error (JsErr.cancellation pid msg) => PRReturn.cancelErr pid msg
  | Except.error (JsErr.other _) => PRReturn.undef

theorem pr_issued_result (cfg : HoversConfig) (has : List String → Bool)
    (ref : String) (remotes : List GitRemote) (isConn : Bool)
    (call : Except JsErr (Option Nat)) :
    (getPullRequestForCommit cfg has ref remotes isConn call).issued = true →
    (getPullRequestForCommit cfg has ref remotes isConn call).result
      = prOfCall call := by
  unfold getPullRequestForCommit
  split
  · intro h
    simp at h
  · split
    · intro h
      simp at h
    · split
      · intro h
        simp at h
      · split
        · intro h
          simp at h
        · split
          · intro h
            simp at h
          · intro _
            unfold prOfCall
            cases call with
            | ok o => cases o <;> rfl
            | error e => cases e <;> rfl

theorem auto_issued_result (cfg : HoversConfig) (has : List String → Bool)
    (message : String) (remotes : List GitRemote)
    (call : Except JsErr (Option IssueMap)) :
    (getAutoLinkedIssues cfg has message remotes call).issued = true →
    (getAutoLinkedIssues cfg has message remotes call).result
      = (match call with
          | Except.ok issues => issues
          | Except.error _ => none) := by
  unfold getAutoLinkedIssues
  split
  · intro h
    simp at h
  · split
    · intro h
      simp at h
    · intro _
      cases call <;> rfl

theorem auto_error_none (cfg : HoversConfig) (has : List String → Bool)
    (message : String) (remotes : List GitRemote) (e : JsErr) :
    (getAutoLinkedIssues cfg has message remotes (Except.error e)).result
      = none := by
  unfold getAutoLinkedIssues
  split
  · rfl
  · split <;> rfl

/-- The JavaScript `Promise.all` of two already-issued operations: it rejects
with the first rejection, and resolves with the pair of values when both
resolve. -/
def promiseAll2 {α β : Type} (a : Except JsErr α) (b : Except JsErr β) :
    Except JsErr (α × β) :=
  match a with
  | Except.error e => Except.error e
  | Except.ok va =>
      match b with
      | Except.error e => Except.error e
      | Except.ok vb => Except.ok (va, vb)

/-- The two enrichment members of the `Promise.all` in `Hovers.detailsMessage`
(hovers.ts lines 158-163): the autolinked-issues lookup and the pull-request
lookup run concurrently and each one, being a total translation of a function
whose awaits are wrapped in try/catch, always resolves. -/
def detailsMessageLookups (cfg : HoversConfig) (has : List String → Bool)
    (message ref : String) (remotes : List GitRemote) (isConn : Bool)
    (callA : Except JsErr (Option IssueMap))
    (callP : Except JsErr (Option Nat)) :
    Except JsErr (Option IssueMap × PRReturn) :=
  promiseAll2
    (Except.ok (getAutoLinkedIssues cfg has message remotes callA).result)
    (Except.ok
      (getPullRequestForCommit cfg has ref remotes isConn callP).result)

/-- C4: a timed-out lookup surfaces its cancellation outcome, still holding
the original call handle, instead of being retried, polled or collapsed into
the failed marker: if its underlying call was issued and rejected with a
`CancellationError`, `getPullRequestForCommit` returns that error itself
(same promise handle, same message), and if the autolinked-issues call
resolved with a map containing timed-out entries, `getAutoLinkedIssues`
returns that map unchanged, the embedded promises included. -/
theorem timed_out_outcome_surfaced (cfg : HoversConfig)
    (has : List String → Bool) (message ref : String)
    (remotes : List GitRemote) (isConn : Bool) (pid : Nat) (emsg : String)
    (m : IssueMap) :
    ((getPullRequestForCommit cfg has ref remotes isConn
        (Except.error (JsErr.cancellation pid emsg))).issued = true →
      (getPullRequestForCommit cfg has ref remotes isConn
        (Except.error (JsErr.cancellation pid emsg))).result
        = PRReturn.cancelErr pid emsg) ∧
    (hasTimedOutEntry m = true →
      (getAutoLinkedIssues cfg has message remotes
          (Except.ok (some m))).issued = true →
      (getAutoLinkedIssues cfg has message remotes
          (Except.ok (some m))).result = some m) := by
  constructor
  · intro h
    exact pr_issued_result cfg has ref remotes isConn
      (Except.error (JsErr.cancellation pid emsg)) h
  · intro _ h
    exact auto_issued_result cfg has message remotes (Except.ok (some m)) h

/-- A configuration with every feature turned on, a template predicate that
references every field, and remotes used by the closed witnesses and
counterexamples. -/
def cfgAllOn : HoversConfig := ⟨true, true, true⟩

/-- Template predicate of a template referencing every field. -/
def hasAll : List String → Bool := fun _ => true

/-- A default remote whose provider has the API capability and is connected. -/
def remoteApi : GitRemote := ⟨2, true, some ⟨2, true, some true⟩⟩

/-- An issue map with one timed-out entry (an embedded cancellation outcome
holding promise 9). -/
def mapTimed : IssueMap := [(1, IssueOrCancel.cancelOutcome 9 "TIMED OUT")]

/-- Closed witness instantiating `timed_out_outcome_surfaced` at a fully
enabled configuration and a connected default remote. -/
theorem timed_out_outcome_surfaced_witness :
    (getPullRequestForCommit cfgAllOn hasAll "abc123" [remoteApi] true
        (Except.error (JsErr.cancellation 9 "TIMED OUT"))).result
      = PRReturn.cancelErr 9 "TIMED OUT" ∧
    (getAutoLinkedIssues cfgAllOn hasAll "fixes #1" [remoteApi]
        (Except.ok (some mapTimed))).result = some mapTimed := by
  have h := timed_out_outcome_surfaced cfgAllOn hasAll "fixes #1" "abc123"
    [remoteApi] true 9 "TIMED OUT" mapTimed
  exact ⟨h.1 (by decide), h.2 (by decide) (by decide)⟩

/-- C5: a lookup whose underlying call rejects with a genuine (non-timeout)
error returns the failed marker (`undefined`) rather than re-throwing, the
sibling lookup's outcome is untouched, and the combined `Promise.all` of
`detailsMessage` always resolves, never rejects. -/
theorem lookup_failure_isolated (cfg : HoversConfig)
    (has : List String → Bool) (message ref : String)
    (remotes : List GitRemote) (isConn : Bool)
    (callA : Except JsErr (Option IssueMap))
    (callP : Except JsErr (Option Nat)) (e1 e2 : Nat) :
    (detailsMessageLookups cfg has message ref remotes isConn
        (Except.error (JsErr.other e1)) callP
      = Except.ok
          (none,
            (getPullRequestForCommit cfg has ref remotes isConn
              callP).result)) ∧
    ((getPullRequestForCommit cfg has ref remotes isConn
        (Except.error (JsErr.other e2))).issued = true →
      (getPullRequestForCommit cfg has ref remotes isConn
        (Except.error (JsErr.other e2))).result = PRReturn.undef) ∧
    (∃ p, detailsMessageLookups cfg has message ref remotes isConn callA callP
        = Except.ok p) := by
  refine ⟨?_, ?_, ?_⟩
  · unfold detailsMessageLookups promiseAll2
    rw [auto_error_none]
  · intro h
    exact pr_issued_result cfg has ref remotes isConn
      (Except.error (JsErr.other e2)) h
  · exact ⟨_, rfl⟩

/-- Closed witness instantiating `lookup_failure_isolated`: the
autolinked-issues call fails with a domain error, the round still resolves
and the pull-request sibling still carries its own value. -/
theorem lookup_failure_isolated_witness :
    (getPullRequestForCommit cfgAllOn hasAll "abc123" [remoteApi] true
        (Except.error (JsErr.other 3))).result = PRReturn.undef ∧
    detailsMessageLookups cfgAllOn hasAll "fixes #1" "abc123" [remoteApi] true
        (Except.error (JsErr.other 4)) (Except.ok (some 5))
      = Except.ok (none, PRReturn.prVal 5) := by
  have h := lookup_failure_isolated cfgAllOn hasAll "fixes #1" "abc123"
    [remoteApi] true (Except.error (JsErr.other 4)) (Except.ok (some 5)) 4 3
  refine ⟨h.2.1 (by decide), ?_⟩
  exact h.1.trans rfl

/-- C6: each lookup is gated before its call is issued. The autolinked-issues
lookup returns the skipped marker without issuing any call when the autolinks
feature is disabled, when the template does not reference the message field,
or when no default remote with a provider exists; the pull-request lookup
likewise when its feature is disabled, when the template references none of
the pull-request fields, or when the provider capability is unavailable
(no default remote with a provider, or a provider without the API). -/
theorem enrichment_gating (cfg : HoversConfig) (has : List String → Bool)
    (message ref : String) (remotes : List GitRemote) (isConn : Bool)
    (callA : Except JsErr (Option IssueMap))
    (callP : Except JsErr (Option Nat)) :
    ((cfg.autolinksEnabled = false ∨ has ["message"] = false ∨
        remotes.find? defaultWithProvider = none) →
      getAutoLinkedIssues cfg has message remotes callA = ⟨none, false⟩) ∧
    ((cfg.pullRequestsEnabled = false ∨ has prTemplateFields = false ∨
        remotes.find? defaultWithProvider = none ∨
        (∃ r p, remotes.find? defaultWithProvider = some r ∧
          r.provider = some p ∧ p.hasApi = false)) →
      getPullRequestForCommit cfg has ref remotes isConn callP
        = ⟨PRReturn.undef, false⟩) := by
  constructor
  · intro h
    unfold getAutoLinkedIssues
    rcases h with h | h | h
    · simp [h]
    · simp [h]
    · rw [h]
      split
      · rfl
      · rfl
  · intro h
    unfold getPullRequestForCommit
    rcases h with h | h | h | ⟨r, p, hr, hp, hapi⟩
    · simp [h]
    · simp [h]
    · rw [h]
      split
      · rfl
      · rfl
    · rw [hr]
      simp [hp, hapi]

/-- Closed witness instantiating `enrichment_gating` at a configuration with
both features disabled. -/
theorem enrichment_gating_witness :
    getAutoLinkedIssues ⟨false, true, false⟩ hasAll "fixes #1" [remoteApi]
        (Except.ok none) = ⟨none, false⟩ ∧
    getPullRequestForCommit ⟨false, true, false⟩ hasAll "abc123" [remoteApi]
        true (Except.ok none) = ⟨PRReturn.undef, false⟩ := by
  have h := enrichment_gating ⟨false, true, false⟩ hasAll "fixes #1" "abc123"
    [remoteApi] true (Except.ok none) (Except.ok none)
  exact ⟨h.1 (Or.inl rfl), h.2 (Or.inl rfl)⟩

/-- A default remote whose provider lacks the API capability. -/
def remoteNoApi : GitRemote := ⟨3, true, some ⟨3, false, some true⟩⟩

/-- C7 counterexample: when the default remote's provider exists but does not
have the required capability (`hasApi()` is false), `getPullRequestForCommit`
returns plain `undefined` (line 276-280), not the remote object — the
"skip but remember the remote" return is reserved for the not-connected case
(lines 282-288). -/
theorem pr_noapi_returns_undefined :
    (getPullRequestForCommit cfgAllOn hasAll "abc123" [remoteNoApi] true
        (Except.ok (some 5))).result = PRReturn.undef ∧
    ¬ ((getPullRequestForCommit cfgAllOn hasAll "abc123" [remoteNoApi] true
        (Except.ok (some 5))).result = PRReturn.remote remoteNoApi) := by
  decide

/-- C7 (amended): for the pull-request lookup, when the default remote's
provider has the capability (`hasApi()`) but is not presently connected
(`maybeConnected ?? isConnected()` is false), the lookup returns the remote
object itself — distinguished from plain skipped — without issuing the call;
when the provider lacks the capability it returns plain `undefined`, also
without issuing the call. -/
theorem pr_remember_remote (cfg : HoversConfig) (has : List String → Bool)
    (ref : String) (remotes : List GitRemote) (isConn : Bool)
    (call : Except JsErr (Option Nat)) (r : GitRemote) (p : RemoteProvider)
    (hfind : remotes.find? defaultWithProvider = some r)
    (hp : r.provider = some p) (hen : cfg.pullRequestsEnabled = true)
    (hhas : has prTemplateFields = true) :
    (p.hasApi = true → p.maybeConnected.getD isConn = false →
      getPullRequestForCommit cfg has ref remotes isConn call
        = ⟨PRReturn.remote r, false⟩) ∧
    (p.hasApi = false →
      getPullRequestForCommit cfg has ref remotes isConn call
        = ⟨PRReturn.undef, false⟩) := by
  constructor
  · intro hapi hconn
    unfold getPullRequestForCommit
    rw [hfind]
    simp [hen, hhas, hp, hapi, hconn]
  · intro hapi
    unfold getPullRequestForCommit
    rw [hfind]
    simp [hen, hhas, hp, hapi]

/-- A default remote whose provider has the API capability but is recorded as
not connected. -/
def remoteApiOff : GitRemote := ⟨4, true, some ⟨4, true, some false⟩⟩

/-- Closed witness instantiating `pr_remember_remote` at a capable but
disconnected provider and at a provider without the capability. -/
theorem pr_remember_remote_witness :
    getPullRequestForCommit cfgAllOn hasAll "abc123" [remoteApiOff] true
        (Except.ok (some 5)) = ⟨PRReturn.remote remoteApiOff, false⟩ ∧
    getPullRequestForCommit cfgAllOn hasAll "abc123" [remoteNoApi] true
        (Except.ok (some 5)) = ⟨PRReturn.undef, false⟩ := by
  constructor
  · exact (pr_remember_remote cfgAllOn hasAll "abc123" [remoteApiOff] true
      (Except.ok (some 5)) remoteApiOff ⟨4, true, some false⟩ (by decide) rfl
      rfl rfl).1 rfl rfl
  · exact (pr_remember_remote cfgAllOn hasAll "abc123" [remoteNoApi] true
      (Except.ok (some 5)) remoteNoApi ⟨3, false, some true⟩ (by decide) rfl
      rfl rfl).2 rfl

/-- C10: both lookups consult only the first remote that is default and has a
provider: if no such remote exists they return their skipped markers without
issuing any call, whatever the other remotes can do, and any two remote lists
agreeing on that first found remote produce identical lookup outcomes. -/
theorem default_remote_selection (cfg : HoversConfig)
    (has : List String → Bool) (message ref : String)
    (remotes : List GitRemote) (isConn : Bool)
    (callA : Except JsErr (Option IssueMap))
    (callP : Except JsErr (Option Nat)) :
    (remotes.find? defaultWithProvider = none →
      getAutoLinkedIssues cfg has message remotes callA = ⟨none, false⟩ ∧
      getPullRequestForCommit cfg has ref remotes isConn callP
        = ⟨PRReturn.undef, false⟩) ∧
    (∀ remotes2 : List GitRemote,
      remotes.find? defaultWithProvider
          = remotes2.find? defaultWithProvider →
      getAutoLinkedIssues cfg has message remotes callA
          = getAutoLinkedIssues cfg has message remotes2 callA ∧
      getPullRequestForCommit cfg has ref remotes isConn callP
          = getPullRequestForCommit cfg has ref remotes2 isConn callP) := by
  constructor
  · intro h
    refine ⟨(enrichment_gating cfg has message ref remotes isConn callA
        callP).1 (Or.inr (Or.inr h)), ?_⟩
    exact (enrichment_gating cfg has message ref remotes isConn callA
        callP).2 (Or.inr (Or.inr (Or.inl h)))
  · intro remotes2 h
    constructor
    · unfold getAutoLinkedIssues
      rw [h]
    · unfold getPullRequestForCommit
      rw [h]

/-- A non-default remote with a fully capable provider. -/
def remoteNonDefault : GitRemote := ⟨5, false, some ⟨5, true, some true⟩⟩

/-- Closed witness instantiating `default_remote_selection` at a remote list
whose only entry is capable but not default. -/
theorem default_remote_selection_witness :
    getAutoLinkedIssues cfgAllOn hasAll "fixes #1" [remoteNonDefault]
        (Except.ok none) = ⟨none, false⟩ ∧
    getPullRequestForCommit cfgAllOn hasAll "abc123" [remoteNonDefault] true
        (Except.ok none) = ⟨PRReturn.undef, false⟩ := by
  exact (default_remote_selection cfgAllOn hasAll "fixes #1" "abc123"
    [remoteNonDefault] true (Except.ok none) (Except.ok none)).1 (by decide)

/-!
Discrete-time model of the concurrent await in `Hovers.detailsMessage`
(hovers.ts lines 158-163).  Each issued enrichment lookup is bounded by its
own timer race (`Promises.cancellable` with a timeout): the wrapper settles
at the earlier of the underlying call's completion time and its timeout, and
it reports a timeout exactly when the timer fires strictly before the call
completes.  `Promise.all` settles when the last of its members settles, while
awaiting the members one after the other would take the sum of their times.
-/

/-- Settlement time of one `Promises.cancellable` wrapper with a timeout
bound: the earlier of the operation's completion and the timer. -/
def cancellableSettleTime (opTime timeoutMs : Nat) : Nat :=
  min opTime timeoutMs

/-- Whether the wrapper reports a timeout: the timer fires strictly before
the operation completes. -/
def cancellableTimesOut (opTime timeoutMs : Nat) : Bool :=
  timeoutMs < opTime

/-- `Promise.all` settles when its last member settles. -/
def promiseAllSettleTime (ts : List Nat) : Nat :=
  ts.foldr max 0

/-- Awaiting the same members sequentially costs the sum of their settle
times. -/
def sequentialAwaitTime (ts : List Nat) : Nat :=
  ts.foldr (· + ·) 0

/-- One bounded enrichment request: how long its underlying call takes and
its timeout. -/
structure TimedRequest where
  opTime : Nat
  timeoutMs : Nat
deriving DecidableEq

/-- Branch observed for one bounded request. -/
inductive TimedOutcome where
  | value
  | timedOut
deriving DecidableEq

/-- Wall time of the orchestration round of `detailsMessage`: the
`Promise.all` over the individually bounded lookups. -/
def enrichSettleTime (reqs : List TimedRequest) : Nat :=
  promiseAllSettleTime
    (reqs.map fun r => cancellableSettleTime r.opTime r.timeoutMs)

/-- Branches observed for the bounded requests of one round. -/
def enrichOutcomes (reqs : List TimedRequest) : List TimedOutcome :=
  reqs.map fun r =>
    if cancellableTimesOut r.opTime r.timeoutMs then TimedOutcome.timedOut
    else TimedOutcome.value

/-- C9: the orchestrator awaits the issued lookups concurrently, not
sequentially: with timeouts 50 ms and 500 ms over underlying calls that each
take 200 ms, the round reports the first as timed out and the second as a
real value, and its wall time is max(50, 200) = 200 ms — not the sum of the
branches (50 + 200) and not 500 + 200. -/
theorem concurrent_await_wall_time :
    enrichOutcomes [⟨200, 50⟩, ⟨200, 500⟩]
      = [TimedOutcome.timedOut, TimedOutcome.value] ∧
    enrichSettleTime [⟨200, 50⟩, ⟨200, 500⟩] = max 50 200 ∧
    enrichSettleTime [⟨200, 50⟩, ⟨200, 500⟩]
      < sequentialAwaitTime
          [cancellableSettleTime 200 50, cancellableSettleTime 200 500] ∧
    enrichSettleTime [⟨200, 50⟩, ⟨200, 500⟩] ≠ 50 + 200 ∧
    enrichSettleTime [⟨200, 50⟩, ⟨200, 500⟩] ≠ 500 + 200 := by
  decide

end GitLens
